import Mathlib

/-!
Shallow embedding of `src/kafka/kafka_consumer.py` (a Kafka
consume/reconcile/validate/transform/route pipeline) and proofs about it.

Modelling conventions:
* A Python `dict` (a record deserialized from JSON) is an insertion-ordered
  association list `List (String × Value)`; `data[k] = v` is `setKey`, which
  overwrites in place when the key exists and appends otherwise, exactly like
  a Python dict.
* In-place mutation is made explicit: `handle_missing_fields` returns the
  final state of the record object alongside its Python return value, because
  the caller (and `message.value()`, which aliases the same object) observes
  the mutation.
* External collaborators are parameters: `fastavro.validate` is an abstract
  `Record → Schema → Except String Unit` (`.error` = the call raised),
  `json.loads` of a raw payload is an abstract
  `String → Except String Record`, and `datetime.fromtimestamp(·).strftime`
  (which depends on the local time zone) is an abstract
  `Int → Option String` (`none` = the conversion raised).  A concrete UTC
  instance `fmtUTC` is provided so that properties can be evaluated on
  concrete inputs.
* `json.dumps` on a record is modelled by `jsonDumps` (Python's default
  separators `", "` and `": "`; the records appearing in the development
  contain no characters that `json.dumps` would escape).
-/

namespace KafkaConsumer

/-- Dynamic value stored in a record field, as produced by `json.loads`:
a string, an integer, a boolean, or null. -/
inductive Value where
  | str (s : String)
  | int (n : Int)
  | bool (b : Bool)
  | null
deriving DecidableEq, Repr

/-- A record: a Python dict from field name to dynamic value, kept in
insertion order. -/
abbrev Record := List (String × Value)

/-- One field descriptor of the Avro schema, as read by the Python code
(`field["name"]`, `field["type"]`). -/
structure SchemaField where
  name : String
  ftype : String
deriving DecidableEq, Repr

/-- The schema as used by the Python code: it only reads `schema["fields"]`. -/
structure Schema where
  fields : List SchemaField
deriving DecidableEq, Repr

/-- Python `k in data` for a dict. -/
def hasKey (data : Record) (k : String) : Bool :=
  data.any (fun p => p.1 == k)

/-- Python `data.get(k)` for a dict: the value at the first (unique) matching
key, or `None`. -/
def getKey (data : Record) (k : String) : Option Value :=
  (data.find? (fun p => p.1 == k)).map (fun p => p.2)

/-- Python `data[k] = v` for a dict: overwrite in place when the key exists,
append at the end otherwise. -/
def setKey (data : Record) (k : String) (v : Value) : Record :=
  if hasKey data k then
    data.map (fun p => if p.1 == k then (k, v) else p)
  else
    data ++ [(k, v)]

/-- Serialization of one value, as `json.dumps` renders it. -/
def Value.dump : Value → String
  | .str s => "\"" ++ s ++ "\""
  | .int n => toString n
  | .bool b => if b then "true" else "false"
  | .null => "null"

/-- Serialization of a record, as `json.dumps` renders a dict with its
default separators. -/
def jsonDumps (data : Record) : String :=
  "\x7b" ++ String.intercalate ", "
    (data.map (fun p => "\"" ++ p.1 ++ "\": " ++ p.2.dump)) ++ "\x7d"

/-- `validate_data(data, schema)` (kafka_consumer.py lines 37–47): calls the
external `fastavro.validate` and returns `True` on success; any exception is
caught and turned into `False`.  The external checker is the parameter
`fav`; `.error` means the call raised. -/
def validate_data (fav : Record → Schema → Except String Unit)
    (data : Record) (schema : Schema) : Bool :=
  match fav data schema with
  | .ok _ => true
  | .error _ => false

/-- The default value the reconciler inserts for a missing field of the given
declared type (kafka_consumer.py lines 61–66): `""` for `string`, `0` for
`int`/`long`, `False` for `boolean`, and nothing for any other type. -/
def defaultFor (t : String) : Option Value :=
  if t == "string" then some (.str "")
  else if t == "int" then some (.int 0)
  else if t == "long" then some (.int 0)
  else if t == "boolean" then some (.bool false)
  else none

/-- The `for field in schema["fields"]` loop of `handle_missing_fields`:
threads the (mutated-in-place) record and the accumulated `missing_fields`
list through the schema fields in order.  The membership test
`field["name"] not in data` is against the record as already mutated by
earlier iterations, exactly as in the Python loop. -/
def hmfLoop : Record → List String → List SchemaField → Record × List String
  | data, missing, [] => (data, missing)
  | data, missing, f :: rest =>
    if hasKey data f.name then
      hmfLoop data missing rest
    else
      let data' :=
        match defaultFor f.ftype with
        | some v => setKey data f.name v
        | none => data
      hmfLoop data' (missing ++ [f.name]) rest

/-- `handle_missing_fields(data, schema)` (kafka_consumer.py lines 50–71).
The first component is the final state of the record object (the caller's
`data` is mutated in place); the second is the Python return value: `None`
when at least one field was recorded missing, otherwise the (same) record. -/
def handle_missing_fields (data : Record) (schema : Schema) :
    Record × Option Record :=
  let r := hmfLoop data [] schema.fields
  (r.1, if r.2.isEmpty then some r.1 else none)

/-- Python's `isinstance(v, int)` on a dynamic value, returning the integer
it denotes: true integers, and also booleans (in Python `bool` is a subclass
of `int`, with `True == 1` and `False == 0`).  Strings and null are not
`int` instances. -/
def isIntInstance : Value → Option Int
  | .int n => some n
  | .bool b => some (if b then 1 else 0)
  | _ => none

/-- The sentinel timestamp string the transformer falls back to. -/
def sentinelTimestamp : String := "1970-01-01 00:00:00"

/-- The string `process_data` stores into the `timestamp` field: the
formatted epoch when the field holds an `int` instance and the conversion
succeeds, the sentinel in every other case. -/
def newTimestamp (fmt : Int → Option String) (data : Record) : String :=
  match getKey data "timestamp" with
  | some v =>
    match isIntInstance v with
    | some n =>
      match fmt n with
      | some s => s
      | none => sentinelTimestamp
    | none => sentinelTimestamp
  | none => sentinelTimestamp

/-- `process_data(data)` (kafka_consumer.py lines 74–92), parametrized by the
local-time formatter `fmt` modelling
`datetime.fromtimestamp(·).strftime("%Y-%m-%d %H:%M:%S")` (`none` = the
conversion raised, caught by the `except` branch).  Reads `timestamp` with
`.get`, formats it when it is an `int` instance, and otherwise (missing,
non-int, or conversion error) overwrites it with the sentinel.  Total: every
internal exception is caught. -/
def process_data (fmt : Int → Option String) (data : Record) : Record :=
  match getKey data "timestamp" with
  | some v =>
    match isIntInstance v with
    | some n =>
      match fmt n with
      | some s => setKey data "timestamp" (.str s)
      | none => setKey data "timestamp" (.str sentinelTimestamp)
    | none => setKey data "timestamp" (.str sentinelTimestamp)
  | none => setKey data "timestamp" (.str sentinelTimestamp)

/-- `send_to_dlq(dlq_producer, message, error)` (kafka_consumer.py lines
107–116): produces `json.dumps(message.value())` to the DLQ topic.  The
argument is the current state of the message's value: `.ok r` when
deserialization succeeded (and `r` reflects any in-place mutation since),
`.error` when `message.value()` raises — in that case `json.dumps` raises
inside the `try`, the exception is caught, and nothing is produced
(`none`). -/
def send_to_dlq (msgValue : Except String Record) : Option String :=
  match msgValue with
  | .ok r => some (jsonDumps r)
  | .error _ => none

/-- One event delivered by `consumer.poll`: a timeout (`None`), a
transport-level error (end-of-partition or other), or a message carrying a
raw payload. -/
inductive InputEvent where
  | timeout
  | kafkaError (isEof : Bool)
  | msg (raw : String)
deriving DecidableEq, Repr

/-- The per-record outcome of one iteration of the poll loop: nothing
routed (timeout / transport error), dead-lettered with a reason and the
payload actually produced to the DLQ (`none` when the DLQ send itself
failed), or forwarded with the payload produced to the output topic. -/
inductive Outcome where
  | skipped
  | deadLettered (reason : String) (dlqPayload : Option String)
  | forwarded (payload : String)
deriving DecidableEq, Repr

/-- True exactly on `Outcome.forwarded`. -/
def Outcome.isForwarded : Outcome → Bool
  | .forwarded _ => true
  | _ => false

/-- True exactly on `Outcome.deadLettered`. -/
def Outcome.isDeadLettered : Outcome → Bool
  | .deadLettered _ _ => true
  | _ => false

/-- One iteration of the `while True` body of `process_messages`
(kafka_consumer.py lines 146–199), parametrized by the external
deserializer `deser` (`json.loads` on the raw payload), validator `fav` and
timestamp formatter `fmt`.  Timeouts and transport errors `continue` with no
routing.  A failed deserialization is sent to the DLQ with reason
`"Deserialization error: …"` — but `send_to_dlq` re-reads `message.value()`,
which fails again, so no payload is produced.  Reconciliation failure and
validation failure dead-letter `json.dumps(message.value())`, the current
(possibly mutated) record object.  Otherwise the record is transformed and
forwarded.  The `except` branch around `process_data` (source lines
186–189) is unreachable because `process_data` catches every internal
exception, so it is not modelled. -/
def stepEvent (deser : String → Except String Record)
    (fav : Record → Schema → Except String Unit)
    (fmt : Int → Option String) (schema : Schema) : InputEvent → Outcome
  | .timeout => .skipped
  | .kafkaError _ => .skipped
  | .msg raw =>
    match deser raw with
    | .error e =>
      .deadLettered ("Deserialization error: " ++ e) (send_to_dlq (.error e))
    | .ok data0 =>
      let r := handle_missing_fields data0 schema
      match r.2 with
      | none => .deadLettered "Missing required fields" (send_to_dlq (.ok r.1))
      | some data1 =>
        if validate_data fav data1 schema then
          .forwarded (jsonDumps (process_data fmt data1))
        else
          .deadLettered "Schema validation failed" (send_to_dlq (.ok data1))

/-- State threaded through the poll loop: the `total_messages` counter and
the payloads produced so far to the output topic and to the DLQ topic. -/
structure LoopState where
  total_messages : Nat
  forwarded : List String
  dlq : List String
deriving DecidableEq, Repr

/-- The loop state at process start: counter zero, nothing produced. -/
def initialState : LoopState := ⟨0, [], []⟩

/-- Effect of one iteration's outcome on the loop state: a forward appends
the payload and increments `total_messages` by one; a dead-letter appends
the DLQ payload when the send produced one; everything else is a no-op. -/
def applyOutcome (st : LoopState) : Outcome → LoopState
  | .skipped => st
  | .deadLettered _ none => st
  | .deadLettered _ (some p) => { st with dlq := st.dlq ++ [p] }
  | .forwarded p =>
    { st with total_messages := st.total_messages + 1,
              forwarded := st.forwarded ++ [p] }

/-- `process_messages` (kafka_consumer.py lines 138–199) run on a finite
trace of poll events, starting from `initialState`. -/
def process_messages (deser : String → Except String Record)
    (fav : Record → Schema → Except String Unit)
    (fmt : Int → Option String) (schema : Schema)
    (events : List InputEvent) : LoopState :=
  events.foldl (fun st ev => applyOutcome st (stepEvent deser fav fmt schema ev))
    initialState

/-- Zero-pad a number below 100 to two digits, as `strftime` does. -/
def pad2 (n : Nat) : String :=
  if n < 10 then "0" ++ toString n else toString n

/-- Zero-pad a year below 10000 to four digits, as `strftime` does. -/
def pad4 (n : Nat) : String :=
  if n < 10 then "000" ++ toString n
  else if n < 100 then "00" ++ toString n
  else if n < 1000 then "0" ++ toString n
  else toString n

/-- Convert a day count relative to 1970-01-01 to a civil (year, month, day)
in the proleptic Gregorian calendar (Howard Hinnant's `civil_from_days`). -/
def civilFromDays (days : Int) : Int × Nat × Nat :=
  let z := days + 719468
  let era := z.fdiv 146097
  let doe := (z - era * 146097).toNat
  let yoe := (doe - doe / 1460 + doe / 36524 - doe / 146096) / 365
  let y := (yoe : Int) + era * 400
  let doy := doe - (365 * yoe + yoe / 4 - yoe / 100)
  let mp := (5 * doy + 2) / 153
  let d := doy - (153 * mp + 2) / 5 + 1
  let m := if mp < 10 then mp + 3 else mp - 9
  (if m ≤ 2 then y + 1 else y, m, d)

/-- Concrete instance of the timestamp formatter for the UTC time zone:
`datetime.fromtimestamp(n).strftime("%Y-%m-%d %H:%M:%S")` with local time
UTC; `none` models the `OverflowError`/`OSError` raised for epoch values
whose year falls outside `datetime`'s range 1–9999. -/
def fmtUTC (n : Int) : Option String :=
  let days := n.fdiv 86400
  let sod := (n.emod 86400).toNat
  let c := civilFromDays days
  if c.1 < 1 ∨ c.1 > 9999 then none
  else
    some (pad4 c.1.toNat ++ "-" ++ pad2 c.2.1 ++ "-" ++ pad2 c.2.2 ++ " " ++
      pad2 (sod / 3600) ++ ":" ++ pad2 (sod % 3600 / 60) ++ ":" ++
      pad2 (sod % 60))

/-- External validator instance whose `fastavro.validate` call always
succeeds. -/
def favAccept : Record → Schema → Except String Unit := fun _ _ => .ok ()

/-- External validator instance whose `fastavro.validate` call always raises
a `ValidationError`. -/
def favReject : Record → Schema → Except String Unit :=
  fun _ _ => .error "ValidationError"

/-- Deserializer instance: `json.loads` succeeding only on the payload
`"\x7b\x7d"` (the empty JSON object). -/
def deserEmptyObj : String → Except String Record :=
  fun s => if s == "\x7b\x7d" then .ok [] else .error "Expecting value"

/-- Deserializer instance accepting the payload `"u"` as a two-field
user-login record. -/
def deserUser : String → Except String Record :=
  fun s =>
    if s == "u" then
      .ok [("user_id", Value.str "123"), ("timestamp", Value.int 0)]
    else .error "Expecting value"

/-- Deserializer instance that always raises: models `json.loads` applied to
a payload that is not valid JSON. -/
def deserFail : String → Except String Record :=
  fun _ => .error "Expecting value: line 1 column 1 (char 0)"

/-- A two-field schema used for concrete evaluations. -/
def schemaUT : Schema := ⟨[⟨"user_id", "string"⟩, ⟨"timestamp", "long"⟩]⟩

/-- The full seven-field user-login schema from the repository's tests. -/
def schemaUserLogin : Schema :=
  ⟨[⟨"user_id", "string"⟩, ⟨"app_version", "string"⟩, ⟨"ip", "string"⟩,
    ⟨"locale", "string"⟩, ⟨"device_id", "string"⟩, ⟨"timestamp", "long"⟩,
    ⟨"device_type", "string"⟩]⟩

/-- A complete two-field record matching `schemaUT`. -/
def recUserTs : Record := [("user_id", Value.str "123"), ("timestamp", Value.int 0)]

/-- The complete user-login record from the repository's tests. -/
def recUserLogin : Record :=
  [("user_id", Value.str "123"), ("app_version", Value.str "1.0.0"),
   ("ip", Value.str "162.255.195.202"), ("locale", Value.str "NE"),
   ("device_id", Value.str "0bcbfec0-02c4-496c-99ac-35d0cc750f6b"),
   ("timestamp", Value.int 1742331926), ("device_type", Value.str "android")]

/-! Basic lemmas about the dict operations. -/

theorem hasKey_nil (k : String) : hasKey [] k = false := rfl

theorem hasKey_cons (p : String × Value) (d : Record) (k : String) :
    hasKey (p :: d) k = (p.1 == k || hasKey d k) := by
  simp [hasKey]

theorem getKey_nil (k : String) : getKey [] k = none := rfl

theorem getKey_cons (p : String × Value) (d : Record) (k : String) :
    getKey (p :: d) k = if p.1 == k then some p.2 else getKey d k := by
  cases h : (p.1 == k) <;> simp [getKey, List.find?_cons, h]

theorem getKey_eq_none_of_hasKey_false (d : Record) (k : String)
    (h : hasKey d k = false) : getKey d k = none := by
  induction d with
  | nil => rfl
  | cons p rest ih =>
    rw [hasKey_cons] at h
    rw [getKey_cons]
    rcases Bool.or_eq_false_iff.mp h with ⟨h1, h2⟩
    rw [h1]
    exact ih h2

theorem hasKey_append (d1 d2 : Record) (k : String) :
    hasKey (d1 ++ d2) k = (hasKey d1 k || hasKey d2 k) := by
  simp [hasKey]

theorem hasKey_map_update (d : Record) (k : String) (v : Value) :
    hasKey (d.map fun p => if p.1 == k then (k, v) else p) k = hasKey d k := by
  induction d with
  | nil => rfl
  | cons p rest ih =>
    rw [List.map_cons, hasKey_cons, hasKey_cons]
    by_cases hp : (p.1 == k) = true
    · simp [hp]
    · rw [if_neg hp, Bool.eq_false_iff.mpr hp, ih]

theorem hasKey_map_update_ne (d : Record) (k k' : String) (v : Value)
    (hne : k' ≠ k) :
    hasKey (d.map fun p => if p.1 == k then (k, v) else p) k' = hasKey d k' := by
  have hkk : (k == k') = false := beq_eq_false_iff_ne.mpr fun h => hne h.symm
  induction d with
  | nil => rfl
  | cons p rest ih =>
    rw [List.map_cons, hasKey_cons, hasKey_cons]
    by_cases hp : (p.1 == k) = true
    · have hp1 : p.1 = k := beq_iff_eq.mp hp
      rw [if_pos hp, ih]
      simp only [hp1, hkk]
    · rw [if_neg hp, ih]

theorem getKey_map_update_self (d : Record) (k : String) (v : Value)
    (h : hasKey d k = true) :
    getKey (d.map fun p => if p.1 == k then (k, v) else p) k = some v := by
  induction d with
  | nil => simp [hasKey] at h
  | cons p rest ih =>
    rw [List.map_cons]
    by_cases hp : (p.1 == k) = true
    · rw [if_pos hp, getKey_cons]
      simp
    · rw [hasKey_cons, Bool.eq_false_iff.mpr hp, Bool.false_or] at h
      rw [if_neg hp, getKey_cons, Bool.eq_false_iff.mpr hp]
      simpa using ih h

theorem getKey_map_update_ne (d : Record) (k k' : String) (v : Value)
    (hne : k' ≠ k) :
    getKey (d.map fun p => if p.1 == k then (k, v) else p) k' = getKey d k' := by
  have hkk : (k == k') = false := beq_eq_false_iff_ne.mpr fun h => hne h.symm
  induction d with
  | nil => rfl
  | cons p rest ih =>
    rw [List.map_cons, getKey_cons, getKey_cons]
    by_cases hp : (p.1 == k) = true
    · have hp1 : p.1 = k := beq_iff_eq.mp hp
      rw [if_pos hp]
      simp only [hp1, hkk, Bool.false_eq_true, if_false, ih]
    · rw [if_neg hp, ih]

theorem getKey_append_single_self (d : Record) (k : String) (v : Value)
    (h : hasKey d k = false) : getKey (d ++ [(k, v)]) k = some v := by
  induction d with
  | nil => simp [getKey_cons]
  | cons p rest ih =>
    rw [hasKey_cons] at h
    rcases Bool.or_eq_false_iff.mp h with ⟨h1, h2⟩
    rw [List.cons_append, getKey_cons, h1]
    simpa using ih h2

theorem getKey_append_single_ne (d : Record) (k k' : String) (v : Value)
    (hne : k' ≠ k) : getKey (d ++ [(k, v)]) k' = getKey d k' := by
  have hkk : (k == k') = false := beq_eq_false_iff_ne.mpr fun h => hne h.symm
  induction d with
  | nil => simp [getKey_cons, hkk]
  | cons p rest ih =>
    rw [List.cons_append, getKey_cons, getKey_cons, ih]

theorem hasKey_setKey_self (d : Record) (k : String) (v : Value) :
    hasKey (setKey d k v) k = true := by
  unfold setKey
  by_cases h : hasKey d k
  · rw [if_pos h, hasKey_map_update]
    exact h
  · rw [if_neg h, hasKey_append, hasKey_cons]
    simp

theorem hasKey_setKey_ne (d : Record) (k k' : String) (v : Value)
    (hne : k' ≠ k) : hasKey (setKey d k v) k' = hasKey d k' := by
  have hkk : (k == k') = false := beq_eq_false_iff_ne.mpr fun h => hne h.symm
  unfold setKey
  by_cases h : hasKey d k
  · rw [if_pos h]
    exact hasKey_map_update_ne d k k' v hne
  · rw [if_neg h, hasKey_append, hasKey_cons, hasKey_nil, hkk]
    simp

theorem hasKey_setKey_of (d : Record) (k k' : String) (v : Value)
    (h : hasKey d k' = true) : hasKey (setKey d k v) k' = true := by
  by_cases hk : k' = k
  · subst hk
    exact hasKey_setKey_self d k' v
  · rw [hasKey_setKey_ne d k k' v hk]
    exact h

theorem getKey_setKey_self (d : Record) (k : String) (v : Value) :
    getKey (setKey d k v) k = some v := by
  unfold setKey
  by_cases h : hasKey d k
  · rw [if_pos h]
    exact getKey_map_update_self d k v h
  · rw [if_neg h]
    exact getKey_append_single_self d k v (Bool.eq_false_iff.mpr h)

theorem getKey_setKey_ne (d : Record) (k k' : String) (v : Value)
    (hne : k' ≠ k) : getKey (setKey d k v) k' = getKey d k' := by
  unfold setKey
  by_cases h : hasKey d k
  · rw [if_pos h]
    exact getKey_map_update_ne d k k' v hne
  · rw [if_neg h]
    exact getKey_append_single_ne d k k' v hne

/-! Lemmas about the reconciliation loop. -/

theorem hmfLoop_missing_grows (fields : List SchemaField) :
    ∀ (data : Record) (missing : List String),
      ∃ t, (hmfLoop data missing fields).2 = missing ++ t := by
  induction fields with
  | nil => exact fun data missing => ⟨[], by simp [hmfLoop]⟩
  | cons f rest ih =>
    intro data missing
    by_cases hk : hasKey data f.name = true
    · simpa [hmfLoop, hk] using ih data missing
    · simp only [hmfLoop, Bool.eq_false_iff.mpr hk, Bool.false_eq_true,
        if_false]
      obtain ⟨t, ht⟩ := ih
        (match defaultFor f.ftype with
         | some v => setKey data f.name v
         | none => data) (missing ++ [f.name])
      exact ⟨f.name :: t, by rw [ht]; simp⟩

theorem hmfLoop_ne_nil_of_gap (fields : List SchemaField) :
    ∀ (data : Record) (missing : List String) (f : SchemaField),
      f ∈ fields → hasKey data f.name = false →
      (hmfLoop data missing fields).2 ≠ [] := by
  induction fields with
  | nil => intro _ _ _ hf; exact absurd hf (List.not_mem_nil _)
  | cons g rest ih =>
    intro data missing f hf hkey
    by_cases hk : hasKey data g.name = true
    · rcases List.mem_cons.mp hf with hfg | hfr
      · rw [hfg] at hkey
        rw [hkey] at hk
        exact absurd hk (by simp)
      · simpa [hmfLoop, hk] using ih data missing f hfr hkey
    · simp only [hmfLoop, Bool.eq_false_iff.mpr hk, Bool.false_eq_true,
        if_false]
      obtain ⟨t, ht⟩ := hmfLoop_missing_grows rest
        (match defaultFor g.ftype with
         | some v => setKey data g.name v
         | none => data) (missing ++ [g.name])
      rw [ht]
      simp

theorem hmfLoop_noop (fields : List SchemaField) :
    ∀ (data : Record) (missing : List String),
      (∀ f ∈ fields, hasKey data f.name = true) →
      hmfLoop data missing fields = (data, missing) := by
  induction fields with
  | nil => intro data missing _; rfl
  | cons f rest ih =>
    intro data missing h
    have hk : hasKey data f.name = true := h f (List.mem_cons_self f rest)
    simp only [hmfLoop, hk, if_true]
    exact ih data missing fun g hg => h g (List.mem_cons_of_mem f hg)

theorem hmfLoop_complete_of_missing_eq (fields : List SchemaField) :
    ∀ (data : Record) (missing : List String),
      (hmfLoop data missing fields).2 = missing →
      ∀ f ∈ fields, hasKey data f.name = true := by
  induction fields with
  | nil => intro _ _ _ f hf; exact absurd hf (List.not_mem_nil _)
  | cons g rest ih =>
    intro data missing hmiss f hf
    by_cases hk : hasKey data g.name = true
    · rw [show hmfLoop data missing (g :: rest) = hmfLoop data missing rest
          by simp [hmfLoop, hk]] at hmiss
      rcases List.mem_cons.mp hf with hfg | hfr
      · rw [hfg]; exact hk
      · exact ih data missing hmiss f hfr
    · exfalso
      simp only [hmfLoop, Bool.eq_false_iff.mpr hk, Bool.false_eq_true,
        if_false] at hmiss
      obtain ⟨t, ht⟩ := hmfLoop_missing_grows rest
        (match defaultFor g.ftype with
         | some v => setKey data g.name v
         | none => data) (missing ++ [g.name])
      rw [ht] at hmiss
      have := congrArg List.length hmiss
      simp only [List.length_append, List.length_cons, List.length_nil] at this
      omega

theorem getKey_hmfLoop_untouched (fields : List SchemaField) :
    ∀ (data : Record) (missing : List String) (k : String),
      (∀ f ∈ fields, f.name ≠ k) →
      getKey (hmfLoop data missing fields).1 k = getKey data k := by
  induction fields with
  | nil => intro _ _ _ _; rfl
  | cons g rest ih =>
    intro data missing k h
    have hgk : g.name ≠ k := h g (List.mem_cons_self g rest)
    have hrest : ∀ f ∈ rest, f.name ≠ k :=
      fun f hf => h f (List.mem_cons_of_mem g hf)
    by_cases hk : hasKey data g.name = true
    · simpa [hmfLoop, hk] using ih data missing k hrest
    · simp only [hmfLoop, Bool.eq_false_iff.mpr hk, Bool.false_eq_true,
        if_false]
      cases hdef : defaultFor g.ftype with
      | some v =>
        rw [ih _ _ k hrest]
        exact getKey_setKey_ne data g.name k v fun hkk => hgk hkk.symm
      | none =>
        rw [ih _ _ k hrest]

theorem getKey_hmfLoop_of_missing (fields : List SchemaField) :
    ∀ (data : Record) (missing : List String) (f : SchemaField),
      (fields.map SchemaField.name).Nodup → f ∈ fields →
      hasKey data f.name = false →
      getKey (hmfLoop data missing fields).1 f.name = defaultFor f.ftype := by
  induction fields with
  | nil => intro _ _ _ _ hf; exact absurd hf (List.not_mem_nil _)
  | cons g rest ih =>
    intro data missing f hnd hf hkey
    rw [List.map_cons, List.nodup_cons] at hnd
    rcases List.mem_cons.mp hf with hfg | hfr
    · subst hfg
      simp only [hmfLoop, hkey, Bool.false_eq_true, if_false]
      have hrest : ∀ h ∈ rest, h.name ≠ f.name := by
        intro h hh hcontra
        exact hnd.1 (hcontra ▸ List.mem_map_of_mem SchemaField.name hh)
      cases hdef : defaultFor f.ftype with
      | some v =>
        rw [getKey_hmfLoop_untouched rest _ _ f.name hrest]
        exact getKey_setKey_self data f.name v
      | none =>
        rw [getKey_hmfLoop_untouched rest _ _ f.name hrest]
        exact getKey_eq_none_of_hasKey_false data f.name hkey
    · have hne : f.name ≠ g.name := by
        intro hcontra
        exact hnd.1 (hcontra ▸ List.mem_map_of_mem SchemaField.name hfr)
      by_cases hk : hasKey data g.name = true
      · simpa [hmfLoop, hk] using ih data missing f hnd.2 hfr hkey
      · simp only [hmfLoop, Bool.eq_false_iff.mpr hk, Bool.false_eq_true,
          if_false]
        cases hdef : defaultFor g.ftype with
        | some v =>
          have hk' : hasKey (setKey data g.name v) f.name = false := by
            rw [hasKey_setKey_ne data g.name f.name v hne]
            exact hkey
          exact ih _ _ f hnd.2 hfr hk'
        | none =>
          exact ih _ _ f hnd.2 hfr hkey

/-! Lemmas about `handle_missing_fields` as a whole. -/

theorem hmf_none_of_gap (data : Record) (schema : Schema)
    (h : ∃ f ∈ schema.fields, hasKey data f.name = false) :
    (handle_missing_fields data schema).2 = none := by
  obtain ⟨f, hf, hkey⟩ := h
  have hne := hmfLoop_ne_nil_of_gap schema.fields data [] f hf hkey
  unfold handle_missing_fields
  simp only []
  rw [if_neg]
  intro hcontra
  exact hne (List.isEmpty_iff.mp hcontra)

theorem hmf_complete (data : Record) (schema : Schema)
    (h : ∀ f ∈ schema.fields, hasKey data f.name = true) :
    handle_missing_fields data schema = (data, some data) := by
  unfold handle_missing_fields
  rw [hmfLoop_noop schema.fields data [] h]
  rfl

theorem hmf_some_elim (data : Record) (schema : Schema) (r : Record)
    (h : (handle_missing_fields data schema).2 = some r) :
    r = data ∧ ∀ f ∈ schema.fields, hasKey data f.name = true := by
  unfold handle_missing_fields at h
  simp only [] at h
  by_cases he : (hmfLoop data [] schema.fields).2.isEmpty = true
  · have hnil : (hmfLoop data [] schema.fields).2 = [] := List.isEmpty_iff.mp he
    have hcomp := hmfLoop_complete_of_missing_eq schema.fields data [] hnil
    have hnoop := hmfLoop_noop schema.fields data [] hcomp
    rw [if_pos he] at h
    refine ⟨?_, hcomp⟩
    rw [hnoop] at h
    exact (Option.some.injEq _ _ ▸ h).symm
  · rw [if_neg he] at h
    exact absurd h (by simp)

/-! Lemmas about the transformer. -/

theorem process_data_eq (fmt : Int → Option String) (data : Record) :
    process_data fmt data =
      setKey data "timestamp" (Value.str (newTimestamp fmt data)) := by
  unfold process_data newTimestamp
  cases h : getKey data "timestamp" with
  | none => rfl
  | some v =>
    cases hiv : isIntInstance v with
    | none => simp [hiv]
    | some n =>
      cases hf : fmt n with
      | none => simp [hiv, hf]
      | some s => simp [hiv, hf]

theorem hasKey_process_data_of (fmt : Int → Option String) (data : Record)
    (k : String) (h : hasKey data k = true) :
    hasKey (process_data fmt data) k = true := by
  rw [process_data_eq]
  exact hasKey_setKey_of data "timestamp" k _ h

/-! Equations for one iteration of the poll loop. -/

theorem stepEvent_timeout (deser : String → Except String Record)
    (fav : Record → Schema → Except String Unit)
    (fmt : Int → Option String) (schema : Schema) :
    stepEvent deser fav fmt schema .timeout = .skipped := rfl

theorem stepEvent_kafkaError (deser : String → Except String Record)
    (fav : Record → Schema → Except String Unit)
    (fmt : Int → Option String) (schema : Schema) (b : Bool) :
    stepEvent deser fav fmt schema (.kafkaError b) = .skipped := rfl

theorem stepEvent_msg (deser : String → Except String Record)
    (fav : Record → Schema → Except String Unit)
    (fmt : Int → Option String) (schema : Schema) (raw : String) :
    stepEvent deser fav fmt schema (.msg raw) =
      match deser raw with
      | .error e =>
        .deadLettered ("Deserialization error: " ++ e) (send_to_dlq (.error e))
      | .ok data0 =>
        match (handle_missing_fields data0 schema).2 with
        | none => .deadLettered "Missing required fields"
            (send_to_dlq (.ok (handle_missing_fields data0 schema).1))
        | some data1 =>
          if validate_data fav data1 schema then
            .forwarded (jsonDumps (process_data fmt data1))
          else
            .deadLettered "Schema validation failed" (send_to_dlq (.ok data1)) :=
  rfl

theorem stepEvent_msg_error {deser : String → Except String Record}
    (fav : Record → Schema → Except String Unit)
    (fmt : Int → Option String) (schema : Schema) {raw e : String}
    (h : deser raw = .error e) :
    stepEvent deser fav fmt schema (.msg raw) =
      .deadLettered ("Deserialization error: " ++ e) none := by
  rw [stepEvent_msg, h]
  rfl

theorem stepEvent_msg_missing {deser : String → Except String Record}
    (fav : Record → Schema → Except String Unit)
    (fmt : Int → Option String) {schema : Schema} {raw : String} {d0 : Record}
    (h : deser raw = .ok d0)
    (h2 : (handle_missing_fields d0 schema).2 = none) :
    stepEvent deser fav fmt schema (.msg raw) =
      .deadLettered "Missing required fields"
        (some (jsonDumps (handle_missing_fields d0 schema).1)) := by
  rw [stepEvent_msg, h]
  show (match (handle_missing_fields d0 schema).2 with
        | none => Outcome.deadLettered "Missing required fields"
            (send_to_dlq (.ok (handle_missing_fields d0 schema).1))
        | some data1 =>
          if validate_data fav data1 schema then
            Outcome.forwarded (jsonDumps (process_data fmt data1))
          else
            Outcome.deadLettered "Schema validation failed"
              (send_to_dlq (.ok data1))) = _
  rw [h2]
  rfl

theorem stepEvent_msg_validating {deser : String → Except String Record}
    (fav : Record → Schema → Except String Unit)
    (fmt : Int → Option String) {schema : Schema} {raw : String}
    {d0 d1 : Record} (h : deser raw = .ok d0)
    (h2 : (handle_missing_fields d0 schema).2 = some d1) :
    stepEvent deser fav fmt schema (.msg raw) =
      (if validate_data fav d1 schema then
        .forwarded (jsonDumps (process_data fmt d1))
      else
        .deadLettered "Schema validation failed" (some (jsonDumps d1))) := by
  rw [stepEvent_msg, h]
  show (match (handle_missing_fields d0 schema).2 with
        | none => Outcome.deadLettered "Missing required fields"
            (send_to_dlq (.ok (handle_missing_fields d0 schema).1))
        | some data1 =>
          if validate_data fav data1 schema then
            Outcome.forwarded (jsonDumps (process_data fmt data1))
          else
            Outcome.deadLettered "Schema validation failed"
              (send_to_dlq (.ok data1))) = _
  rw [h2]
  rfl

/-! Lemmas about the loop state. -/

theorem applyOutcome_total (st : LoopState) (o : Outcome) :
    (applyOutcome st o).total_messages =
      st.total_messages + (if o.isForwarded then 1 else 0) := by
  cases o with
  | skipped => simp [applyOutcome, Outcome.isForwarded]
  | deadLettered r p => cases p <;> simp [applyOutcome, Outcome.isForwarded]
  | forwarded p => simp [applyOutcome, Outcome.isForwarded]

theorem applyOutcome_forwarded_length (st : LoopState) (o : Outcome) :
    (applyOutcome st o).forwarded.length =
      st.forwarded.length + (if o.isForwarded then 1 else 0) := by
  cases o with
  | skipped => simp [applyOutcome, Outcome.isForwarded]
  | deadLettered r p => cases p <;> simp [applyOutcome, Outcome.isForwarded]
  | forwarded p => simp [applyOutcome, Outcome.isForwarded]

theorem process_messages_nil (deser : String → Except String Record)
    (fav : Record → Schema → Except String Unit)
    (fmt : Int → Option String) (schema : Schema) :
    process_messages deser fav fmt schema [] = initialState := rfl

theorem process_messages_snoc (deser : String → Except String Record)
    (fav : Record → Schema → Except String Unit)
    (fmt : Int → Option String) (schema : Schema)
    (events : List InputEvent) (ev : InputEvent) :
    process_messages deser fav fmt schema (events ++ [ev]) =
      applyOutcome (process_messages deser fav fmt schema events)
        (stepEvent deser fav fmt schema ev) := by
  unfold process_messages
  rw [List.foldl_append]
  rfl

theorem foldl_total_eq_forwarded_length (deser : String → Except String Record)
    (fav : Record → Schema → Except String Unit)
    (fmt : Int → Option String) (schema : Schema) :
    ∀ (events : List InputEvent) (st : LoopState),
      st.total_messages = st.forwarded.length →
      (events.foldl
          (fun s e => applyOutcome s (stepEvent deser fav fmt schema e))
          st).total_messages =
        (events.foldl
          (fun s e => applyOutcome s (stepEvent deser fav fmt schema e))
          st).forwarded.length := by
  intro events
  induction events with
  | nil => exact fun st h => h
  | cons ev rest ih =>
    intro st h
    rw [List.foldl_cons]
    refine ih _ ?_
    rw [applyOutcome_total, applyOutcome_forwarded_length, h]

/-! Claim theorems. -/

/-- C2: for every record and schema such that at least one schema-declared
field name is absent from the record, `handle_missing_fields` returns `None`
(route to dead-letter), regardless of the defaults it inserted along the
way; the defaulted record is not returned. -/
theorem reconcile_rejects_on_any_gap (data : Record) (schema : Schema)
    (h : ∃ f ∈ schema.fields, hasKey data f.name = false) :
    (handle_missing_fields data schema).2 = none :=
  hmf_none_of_gap data schema h

/-- Witness for C2: the one-field record from the repository's tests against
the seven-field user-login schema is rejected. -/
theorem reconcile_rejects_on_any_gap_witness :
    (handle_missing_fields [("user_id", Value.str "123")] schemaUserLogin).2 =
      none :=
  reconcile_rejects_on_any_gap _ _
    ⟨⟨"app_version", "string"⟩, by decide, by decide⟩

/-- C7: for every record containing every schema-declared field name,
`handle_missing_fields` is a no-op: the record object is unchanged and is
returned as is. -/
theorem reconcile_noop_on_complete (data : Record) (schema : Schema)
    (h : ∀ f ∈ schema.fields, hasKey data f.name = true) :
    handle_missing_fields data schema = (data, some data) :=
  hmf_complete data schema h

/-- Witness for C7: the complete user-login record from the repository's
tests is returned unchanged. -/
theorem reconcile_noop_on_complete_witness :
    handle_missing_fields recUserLogin schemaUserLogin =
      (recUserLogin, some recUserLogin) :=
  reconcile_noop_on_complete _ _ (by decide)

/-- C10: `handle_missing_fields` mutates its input record in place even when
it returns `None` — for every missing schema field (with distinct schema
field names) the record object afterwards holds exactly the type default for
that field (`""` for string, `0` for int/long, `False` for boolean, nothing
for other types), visible to the caller and to anything aliasing the record,
while the Python return value is `None`. -/
theorem reconcile_mutates_in_place (data : Record) (schema : Schema)
    (f : SchemaField) (hnd : (schema.fields.map SchemaField.name).Nodup)
    (hf : f ∈ schema.fields) (hkey : hasKey data f.name = false) :
    getKey (handle_missing_fields data schema).1 f.name = defaultFor f.ftype ∧
    (handle_missing_fields data schema).2 = none := by
  refine ⟨?_, hmf_none_of_gap data schema ⟨f, hf, hkey⟩⟩
  exact getKey_hmfLoop_of_missing schema.fields data [] f hnd hf hkey

/-- Witness for C10: a record missing the `timestamp` field has the default
`0` inserted into the record object even though `None` is returned. -/
theorem reconcile_mutates_in_place_witness :
    getKey (handle_missing_fields [("user_id", Value.str "123")] schemaUT).1
        "timestamp" = defaultFor "long" ∧
    (handle_missing_fields [("user_id", Value.str "123")] schemaUT).2 =
      none :=
  reconcile_mutates_in_place _ _ ⟨"timestamp", "long"⟩ (by decide) (by decide)
    (by decide)

/-- C8: `validate_data` never raises to its caller — it is a total Boolean
function for every possible behavior `fav` of the external `fastavro`
checker, returning `True` exactly when the external validation call succeeds
(the record conforms) and `False` exactly when the call raises (malformed
schema, irreconcilable type mismatch): the exception is caught, not
propagated. -/
theorem validate_data_never_raises (fav : Record → Schema → Except String Unit)
    (data : Record) (schema : Schema) :
    (validate_data fav data schema = true ↔ fav data schema = .ok ()) ∧
    (validate_data fav data schema = false ↔
      ∃ e, fav data schema = .error e) := by
  cases h : fav data schema with
  | ok u => cases u; constructor <;> simp [validate_data, h]
  | error e => constructor <;> simp [validate_data, h]

/-- C9: `process_data` leaves every field other than `timestamp`
unmodified: for each key different from `"timestamp"`, the output record
maps that key to the same value as the input record. -/
theorem process_data_frame (fmt : Int → Option String) (data : Record)
    (k : String) (h : k ≠ "timestamp") :
    getKey (process_data fmt data) k = getKey data k := by
  rw [process_data_eq]
  exact getKey_setKey_ne data "timestamp" k _ h

/-- Witness for C9: `user_id` is untouched by the timestamp transform. -/
theorem process_data_frame_witness :
    getKey (process_data fmtUTC recUserTs) "user_id" =
      getKey recUserTs "user_id" :=
  process_data_frame fmtUTC recUserTs "user_id" (by decide)

/-- C4 counterexample: a boolean `timestamp` is NOT overwritten with the
sentinel.  Python's `isinstance(True, int)` holds (`bool` is a subclass of
`int`), so `True` is formatted as epoch `1` — `"1970-01-01 00:00:01"` under
UTC — which differs from the sentinel `"1970-01-01 00:00:00"`, refuting
"the field is missing, holds a non-integer value, … the field is uniformly
overwritten with exactly the sentinel string". -/
theorem process_data_bool_timestamp_cex :
    process_data fmtUTC [("timestamp", Value.bool true)] =
      [("timestamp", Value.str "1970-01-01 00:00:01")] ∧
    ("1970-01-01 00:00:01" : String) ≠ sentinelTimestamp := by
  decide

/-- C4 (amended): `process_data` is a total function that overwrites exactly
the `timestamp` field with one string: the local-time formatted epoch when
the field holds an `int` instance — which, by Python's type lattice,
includes booleans, treated as epoch `0`/`1` — and the sentinel
`"1970-01-01 00:00:00"` uniformly when the field is missing, holds any other
non-integer value, or the conversion raises (`fmt` returns `none`).  The
whole result is a single `setKey`, so the function cannot raise to its
caller. -/
theorem process_data_timestamp_characterization (fmt : Int → Option String)
    (data : Record) :
    getKey (process_data fmt data) "timestamp" =
      some (Value.str (newTimestamp fmt data)) ∧
    process_data fmt data =
      setKey data "timestamp" (Value.str (newTimestamp fmt data)) := by
  refine ⟨?_, process_data_eq fmt data⟩
  rw [process_data_eq]
  exact getKey_setKey_self data "timestamp" _

/-- C5: the running counter `total_messages` starts at zero, always equals
the number of payloads forwarded to the output topic (after N forwards it is
N), and processing one more event adds exactly `1` when that event's outcome
is `Forwarded` and `0` otherwise — so it never decrements and nothing except
a forward increments it. -/
theorem running_counter_counts_forwards
    (deser : String → Except String Record)
    (fav : Record → Schema → Except String Unit)
    (fmt : Int → Option String) (schema : Schema)
    (events : List InputEvent) :
    (process_messages deser fav fmt schema []).total_messages = 0 ∧
    (process_messages deser fav fmt schema events).total_messages =
      (process_messages deser fav fmt schema events).forwarded.length ∧
    ∀ ev : InputEvent,
      (process_messages deser fav fmt schema (events ++ [ev])).total_messages =
        (process_messages deser fav fmt schema events).total_messages +
          (if (stepEvent deser fav fmt schema ev).isForwarded then 1
           else 0) := by
  refine ⟨rfl, ?_, ?_⟩
  · exact foldl_total_eq_forwarded_length deser fav fmt schema events
      initialState rfl
  · intro ev
    rw [process_messages_snoc, applyOutcome_total]

/-- C1: every record the pipeline loop forwards contains, at the moment of
forwarding, every schema-declared field (both the reconciled record and its
transformed image) and has passed schema validation; conversely a
deserialized record missing a schema field or failing validation is
dead-lettered and never reaches the forward step. -/
theorem forwarded_records_reconciled_and_validated
    (deser : String → Except String Record)
    (fav : Record → Schema → Except String Unit)
    (fmt : Int → Option String) (schema : Schema) :
    (∀ (ev : InputEvent) (p : String),
        stepEvent deser fav fmt schema ev = .forwarded p →
        ∃ raw d, ev = .msg raw ∧ deser raw = .ok d ∧
          (∀ f ∈ schema.fields, hasKey d f.name = true) ∧
          validate_data fav d schema = true ∧
          (∀ f ∈ schema.fields, hasKey (process_data fmt d) f.name = true) ∧
          p = jsonDumps (process_data fmt d)) ∧
    (∀ (raw : String) (d : Record), deser raw = .ok d →
        ((∃ f ∈ schema.fields, hasKey d f.name = false) ∨
          validate_data fav d schema = false) →
        (stepEvent deser fav fmt schema (.msg raw)).isDeadLettered = true ∧
        (stepEvent deser fav fmt schema (.msg raw)).isForwarded = false) := by
  constructor
  · intro ev p hstep
    cases ev with
    | timeout =>
      rw [stepEvent_timeout] at hstep
      exact Outcome.noConfusion hstep
    | kafkaError b =>
      rw [stepEvent_kafkaError] at hstep
      exact Outcome.noConfusion hstep
    | msg raw =>
      cases hd : deser raw with
      | error e =>
        rw [stepEvent_msg_error fav fmt schema hd] at hstep
        exact Outcome.noConfusion hstep
      | ok d0 =>
        cases h2 : (handle_missing_fields d0 schema).2 with
        | none =>
          rw [stepEvent_msg_missing fav fmt hd h2] at hstep
          exact Outcome.noConfusion hstep
        | some d1 =>
          rw [stepEvent_msg_validating fav fmt hd h2] at hstep
          by_cases hval : validate_data fav d1 schema = true
          · rw [if_pos hval] at hstep
            obtain ⟨hd1, hcomp⟩ := hmf_some_elim d0 schema d1 h2
            rw [hd1] at hstep hval
            injection hstep with hp
            exact ⟨raw, d0, rfl, hd, hcomp, hval,
              fun f hf => hasKey_process_data_of fmt d0 f.name (hcomp f hf),
              hp.symm⟩
          · rw [if_neg hval] at hstep
            exact Outcome.noConfusion hstep
  · intro raw d hd hbad
    cases h2 : (handle_missing_fields d schema).2 with
    | none =>
      rw [stepEvent_msg_missing fav fmt hd h2]
      exact ⟨rfl, rfl⟩
    | some d1 =>
      obtain ⟨hd1, hcomp⟩ := hmf_some_elim d schema d1 h2
      rcases hbad with ⟨f, hf, hkey⟩ | hval
      · rw [hcomp f hf] at hkey
        exact Bool.noConfusion hkey
      · rw [stepEvent_msg_validating fav fmt hd h2,
          if_neg (by rw [hd1, hval]; exact Bool.false_ne_true)]
        exact ⟨rfl, rfl⟩

/-- Witness for C1: a complete two-field record is forwarded (and satisfies
the invariant), while the empty record, which misses every schema field, is
dead-lettered and not forwarded. -/
theorem forwarded_records_reconciled_and_validated_witness :
    (∃ raw d, InputEvent.msg "u" = InputEvent.msg raw ∧
      deserUser raw = .ok d ∧
      (∀ f ∈ schemaUT.fields, hasKey d f.name = true) ∧
      validate_data favAccept d schemaUT = true ∧
      (∀ f ∈ schemaUT.fields, hasKey (process_data fmtUTC d) f.name = true) ∧
      jsonDumps (process_data fmtUTC recUserTs) =
        jsonDumps (process_data fmtUTC d)) ∧
    ((stepEvent deserEmptyObj favAccept fmtUTC schemaUT
        (.msg "\x7b\x7d")).isDeadLettered = true ∧
     (stepEvent deserEmptyObj favAccept fmtUTC schemaUT
        (.msg "\x7b\x7d")).isForwarded = false) :=
  ⟨(forwarded_records_reconciled_and_validated deserUser favAccept fmtUTC
      schemaUT).1 (.msg "u") (jsonDumps (process_data fmtUTC recUserTs))
      (by decide),
   (forwarded_records_reconciled_and_validated deserEmptyObj favAccept fmtUTC
      schemaUT).2 "\x7b\x7d" [] rfl
      (Or.inl ⟨⟨"user_id", "string"⟩, by decide, by decide⟩)⟩

/-- C3 counterexample: the payload sent to the dead-letter channel for a
record dead-lettered with reason "Missing required fields" is the
serialization of the record object AFTER `handle_missing_fields` inserted
defaults into it — `send_to_dlq` serializes `message.value()`, which aliases
the mutated record — and differs both from the raw payload as received
(`"\x7b\x7d"`, the empty JSON object) and from the serialization of the
record as originally deserialized. -/
theorem dlq_payload_not_original_cex :
    stepEvent deserEmptyObj favAccept fmtUTC ⟨[⟨"user_id", "string"⟩]⟩
        (.msg "\x7b\x7d") =
      .deadLettered "Missing required fields"
        (some (jsonDumps [("user_id", Value.str "")])) ∧
    jsonDumps [("user_id", Value.str "")] ≠ "\x7b\x7d" ∧
    jsonDumps [("user_id", Value.str "")] ≠ jsonDumps ([] : Record) := by
  decide

/-- C3 (amended): whenever a record is dead-lettered after reconciliation
began, the payload sent to the dead-letter channel is the JSON serialization
of the message's current value object: for reason "Missing required fields"
that is the partially reconciled record with the inserted defaults (NOT the
original raw payload as received), and for reason "Schema validation failed"
it is the (by then unmutated) deserialized record, re-serialized. -/
theorem dlq_payload_is_current_object
    (deser : String → Except String Record)
    (fav : Record → Schema → Except String Unit)
    (fmt : Int → Option String) (schema : Schema) (raw : String) (d : Record)
    (hd : deser raw = .ok d) :
    ((handle_missing_fields d schema).2 = none →
      stepEvent deser fav fmt schema (.msg raw) =
        .deadLettered "Missing required fields"
          (some (jsonDumps (handle_missing_fields d schema).1))) ∧
    (∀ d1, (handle_missing_fields d schema).2 = some d1 →
      validate_data fav d1 schema = false →
      stepEvent deser fav fmt schema (.msg raw) =
        .deadLettered "Schema validation failed" (some (jsonDumps d1))) := by
  constructor
  · intro h2
    exact stepEvent_msg_missing fav fmt hd h2
  · intro d1 h2 hval
    rw [stepEvent_msg_validating fav fmt hd h2,
      if_neg (by rw [hval]; exact Bool.false_ne_true)]

/-- Witness for C3 (amended): both dead-letter paths evaluated on concrete
records. -/
theorem dlq_payload_is_current_object_witness :
    stepEvent deserEmptyObj favAccept fmtUTC schemaUT (.msg "\x7b\x7d") =
      .deadLettered "Missing required fields"
        (some (jsonDumps (handle_missing_fields [] schemaUT).1)) ∧
    stepEvent deserUser favReject fmtUTC schemaUT (.msg "u") =
      .deadLettered "Schema validation failed"
        (some (jsonDumps recUserTs)) :=
  ⟨(dlq_payload_is_current_object deserEmptyObj favAccept fmtUTC schemaUT
      "\x7b\x7d" [] rfl).1 (by decide),
   (dlq_payload_is_current_object deserUser favReject fmtUTC schemaUT
      "u" recUserTs rfl).2 recUserTs (by decide) rfl⟩

/-- C6 (code evidence): on a payload whose deserialization fails, the loop
takes the dead-letter branch with reason "Deserialization error: …", but
`send_to_dlq` re-reads `message.value()`, whose serialization fails again,
so NO payload is actually sent to the dead-letter channel — the DLQ output
of a run over such a message stays empty (and nothing is forwarded
either). -/
theorem deser_error_sends_nothing_to_dlq :
    stepEvent deserFail favAccept fmtUTC schemaUT (.msg "not json") =
      .deadLettered
        ("Deserialization error: " ++
          "Expecting value: line 1 column 1 (char 0)") none ∧
    (process_messages deserFail favAccept fmtUTC schemaUT
        [.msg "not json", .timeout]).dlq = [] ∧
    (process_messages deserFail favAccept fmtUTC schemaUT
        [.msg "not json", .timeout]).forwarded = [] := by
  exact ⟨stepEvent_msg_error favAccept fmtUTC schemaUT rfl, rfl, rfl⟩

end KafkaConsumer
